import Mathlib

/-!
Shallow embedding of the detec_epi repository (a PPE-detection dashboard:
React/TypeScript frontend plus a specified multi-camera detection-streaming
coordinator) used to check the specification claims against the code.

Machine numbers: every quantity involved in the claims (counts, class ids,
fps values) is a small nonnegative integer in the source; counts and class
ids are modelled as Nat, and JS numbers that flow through the fps form field
as Int. JS strings are modelled as Lean String, with toLowerCase embedded as
a character-wise toLower and trim as String.trim.
-/

/-- One entry of the violations list in the alert-snapshot wire format.
Modelled from the spec: the CameraAlerts TypeScript interface consumed by
CameraCard.tsx is imported from services/api but its declaration is absent
from the source files; the spec gives the wire contract as a record with
fields class_id (int) and count (int). -/
structure WireViolation where
  class_id : Nat
  count : Nat
deriving DecidableEq

/-- Alert snapshot wire record. Modelled from the spec: the wire format is a
record with exactly the fields person_count (int), epi_count (int),
has_violations (bool) and violations (list of WireViolation). -/
structure CameraAlerts where
  person_count : Nat
  epi_count : Nat
  has_violations : Bool
  violations : List WireViolation
deriving DecidableEq

/-- Field names of the alert-snapshot wire record, in wire order. -/
def alertWireFields : List String :=
  ["person_count", "epi_count", "has_violations", "violations"]

/-- Field names of one violations entry on the wire. -/
def violationWireFields : List String :=
  ["class_id", "count"]

/-- Alert-snapshot fields that CameraCard.tsx reads: data.has_violations,
data.violations, alerts?.violations, alerts?.has_violations,
alerts?.person_count, alerts?.epi_count. -/
def cameraCardAlertReads : List String :=
  ["has_violations", "violations", "person_count", "epi_count"]

/-- Fields of a violations entry that CameraCard.tsx reads: v.class_id in
getViolationCounts. -/
def cameraCardViolationReads : List String :=
  ["class_id"]

/-- CameraCard.getViolationCounts body: the JS object update
counts[v.class_id] = (counts[v.class_id] or 0) + 1, embedded as an
association list: the first entry holding the key is bumped in place, a
fresh key is appended at the end. -/
def addCount : List (Nat × Nat) → Nat → List (Nat × Nat)
  | [], c => [(c, 1)]
  | (k, n) :: rest, c =>
    if k = c then (k, n + 1) :: rest else (k, n) :: addCount rest c

/-- CameraCard.getViolationCounts: fold the update over alerts.violations,
starting from the empty object. -/
def getViolationCounts (vs : List WireViolation) : List (Nat × Nat) :=
  vs.foldl (fun acc v => addCount acc v.class_id) []

/-- Number of wire violation entries of class c, i.e. the number of
detections of that class reported for the latest processed frame. -/
def countClass (vs : List WireViolation) (c : Nat) : Nat :=
  vs.countP (fun v => v.class_id == c)

/-- Reading counts[c] from the association list, with 0 for an absent key,
mirroring the JS read (counts[v.class_id] or 0). -/
def lookupCount : List (Nat × Nat) → Nat → Nat
  | [], _ => 0
  | (k, n) :: rest, c => if k = c then n else lookupCount rest c

/-- Key set of the counts object. -/
def keys (acc : List (Nat × Nat)) : List Nat := acc.map Prod.fst

theorem lookupCount_addCount_self (acc : List (Nat × Nat)) (c : Nat) :
    lookupCount (addCount acc c) c = lookupCount acc c + 1 := by
  induction acc with
  | nil => simp [addCount, lookupCount]
  | cons hd tl ih =>
    obtain ⟨k, n⟩ := hd
    by_cases hk : k = c
    · subst hk
      simp [addCount, lookupCount]
    · simpa [addCount, hk, lookupCount] using ih

theorem lookupCount_addCount_ne (acc : List (Nat × Nat)) (c k : Nat)
    (hk : k ≠ c) : lookupCount (addCount acc c) k = lookupCount acc k := by
  induction acc with
  | nil => simp [addCount, lookupCount, Ne.symm hk]
  | cons hd tl ih =>
    obtain ⟨a, n⟩ := hd
    by_cases ha : a = c
    · subst ha
      simp [addCount, lookupCount, Ne.symm hk]
    · by_cases hak : a = k
      · subst hak
        simp [addCount, ha, lookupCount]
      · simpa [addCount, ha, lookupCount, hak] using ih

theorem addCount_cons_ne (k n c : Nat) (tl : List (Nat × Nat)) (hk : k ≠ c) :
    addCount ((k, n) :: tl) c = (k, n) :: addCount tl c := by
  simp [addCount, hk]

theorem keys_addCount (acc : List (Nat × Nat)) (c : Nat) :
    keys (addCount acc c) =
      if c ∈ keys acc then keys acc else keys acc ++ [c] := by
  induction acc with
  | nil => simp [addCount, keys]
  | cons hd tl ih =>
    obtain ⟨k, n⟩ := hd
    by_cases hk : k = c
    · subst hk
      simp [addCount, keys]
    · rw [addCount_cons_ne k n c tl hk]
      simp only [keys, List.map_cons] at ih ⊢
      rw [ih]
      by_cases hc : c ∈ List.map Prod.fst tl <;>
        simp [hc, Ne.symm hk]

theorem keys_nodup_addCount (acc : List (Nat × Nat)) (c : Nat)
    (h : (keys acc).Nodup) : (keys (addCount acc c)).Nodup := by
  rw [keys_addCount]
  by_cases hc : c ∈ keys acc
  · simpa [hc] using h
  · simpa [hc, List.nodup_append] using h

theorem mem_keys_addCount (acc : List (Nat × Nat)) (c k : Nat) :
    k ∈ keys (addCount acc c) ↔ k ∈ keys acc ∨ k = c := by
  rw [keys_addCount]
  by_cases hc : c ∈ keys acc
  · simp only [hc, if_true]
    constructor
    · exact fun h => Or.inl h
    · rintro (h | rfl)
      · exact h
      · exact hc
  · simp [hc]

theorem lookupCount_foldl (vs : List WireViolation) :
    ∀ (acc : List (Nat × Nat)) (k : Nat),
      lookupCount (vs.foldl (fun a v => addCount a v.class_id) acc) k
        = lookupCount acc k + countClass vs k := by
  induction vs with
  | nil => intro acc k; simp [countClass]
  | cons v vs ih =>
    intro acc k
    rw [List.foldl_cons, ih]
    by_cases hk : k = v.class_id
    · subst hk
      rw [lookupCount_addCount_self]
      simp [countClass, List.countP_cons]
      omega
    · rw [lookupCount_addCount_ne _ _ _ hk]
      have hne : (v.class_id == k) = false := by
        simp [Ne.symm hk]
      simp [countClass, List.countP_cons, hne]

theorem keys_nodup_foldl (vs : List WireViolation) :
    ∀ acc : List (Nat × Nat), (keys acc).Nodup →
      (keys (vs.foldl (fun a v => addCount a v.class_id) acc)).Nodup := by
  induction vs with
  | nil => intro acc h; simpa using h
  | cons v vs ih =>
    intro acc h
    rw [List.foldl_cons]
    exact ih _ (keys_nodup_addCount _ _ h)

theorem mem_keys_foldl (vs : List WireViolation) :
    ∀ (acc : List (Nat × Nat)) (k : Nat),
      k ∈ keys (vs.foldl (fun a v => addCount a v.class_id) acc)
        ↔ k ∈ keys acc ∨ ∃ v ∈ vs, v.class_id = k := by
  induction vs with
  | nil => intro acc k; simp
  | cons v vs ih =>
    intro acc k
    rw [List.foldl_cons, ih, mem_keys_addCount]
    constructor
    · rintro ((h | rfl) | h)
      · exact Or.inl h
      · exact Or.inr ⟨v, List.mem_cons_self v vs, rfl⟩
      · obtain ⟨w, hw, hwk⟩ := h
        exact Or.inr ⟨w, List.mem_cons_of_mem v hw, hwk⟩
    · rintro (h | ⟨w, hw, hwk⟩)
      · exact Or.inl (Or.inl h)
      · rcases List.mem_cons.mp hw with rfl | hw2
        · exact Or.inl (Or.inr hwk.symm)
        · exact Or.inr ⟨w, hw2, hwk⟩

theorem lookupCount_eq_of_mem (acc : List (Nat × Nat)) (c n : Nat)
    (hnd : (keys acc).Nodup) (hm : (c, n) ∈ acc) : lookupCount acc c = n := by
  induction acc with
  | nil => cases hm
  | cons hd tl ih =>
    obtain ⟨k, m⟩ := hd
    rcases List.mem_cons.mp hm with heq | htl
    · injection heq with h1 h2
      subst h1
      subst h2
      simp [lookupCount]
    · have hk : k ≠ c := by
        intro hkc
        subst hkc
        have : k ∈ keys tl := List.mem_map.mpr ⟨(k, n), htl, rfl⟩
        simp only [keys, List.map_cons] at hnd
        exact (List.nodup_cons.mp hnd).1 this
      simp only [lookupCount, if_neg hk]
      exact ih (by simpa [keys] using (List.nodup_cons.mp (by simpa [keys] using hnd)).2) htl

theorem mem_of_mem_keys (acc : List (Nat × Nat)) (c : Nat)
    (h : c ∈ keys acc) : ∃ n, (c, n) ∈ acc := by
  obtain ⟨⟨k, n⟩, hm, hk⟩ := List.mem_map.mp h
  have hkc : k = c := hk
  subst hkc
  exact ⟨n, hm⟩

/-- C2: in the surfaced violation aggregation, the violations are grouped by
class id with per-class counts: the key set is duplicate-free (no class id in
two distinct entries), and each class id occurring among the wire violation
entries of the latest frame occurs in exactly one entry, whose count is the
number of entries of that class. -/
theorem C2_violations_grouped_by_class (vs : List WireViolation) (c : Nat)
    (hc : ∃ v ∈ vs, v.class_id = c) :
    (keys (getViolationCounts vs)).Nodup
    ∧ (c, countClass vs c) ∈ getViolationCounts vs
    ∧ ∀ n, (c, n) ∈ getViolationCounts vs → n = countClass vs c := by
  have hnd : (keys (getViolationCounts vs)).Nodup :=
    keys_nodup_foldl vs [] (by simp [keys])
  have hlk : ∀ k, lookupCount (getViolationCounts vs) k = countClass vs k := by
    intro k
    have := lookupCount_foldl vs [] k
    simpa [getViolationCounts, lookupCount] using this
  have hmemk : c ∈ keys (getViolationCounts vs) := by
    rw [getViolationCounts, mem_keys_foldl]
    exact Or.inr hc
  obtain ⟨n, hn⟩ := mem_of_mem_keys _ _ hmemk
  have hval : n = countClass vs c := by
    rw [← hlk c]
    exact (lookupCount_eq_of_mem _ _ _ hnd hn).symm
  refine ⟨hnd, hval ▸ hn, ?_⟩
  intro m hm
  rw [← hlk c]
  exact (lookupCount_eq_of_mem _ _ _ hnd hm).symm

/-- C2 witness: a frame with two missing-helmet detections (class 7) and one
of class 9 yields exactly one violations entry for class 7 with count 2. -/
theorem C2_violations_grouped_by_class_witness :
    (keys (getViolationCounts [⟨7, 1⟩, ⟨9, 1⟩, ⟨7, 1⟩])).Nodup
    ∧ (7, countClass [⟨7, 1⟩, ⟨9, 1⟩, ⟨7, 1⟩] 7)
        ∈ getViolationCounts [⟨7, 1⟩, ⟨9, 1⟩, ⟨7, 1⟩]
    ∧ ∀ n, (7, n) ∈ getViolationCounts [⟨7, 1⟩, ⟨9, 1⟩, ⟨7, 1⟩]
        → n = countClass [⟨7, 1⟩, ⟨9, 1⟩, ⟨7, 1⟩] 7 :=
  C2_violations_grouped_by_class [⟨7, 1⟩, ⟨9, 1⟩, ⟨7, 1⟩] 7
    ⟨⟨7, 1⟩, by decide, by decide⟩

/-- C1: the alert-snapshot wire record has exactly the four contract fields
(eta for CameraAlerts and WireViolation), and every field the CameraCard
consumer reads on the snapshot or on a violations entry is one of the
contract fields. -/
theorem C1_alert_wire_shape :
    (∀ a : CameraAlerts,
      a = CameraAlerts.mk a.person_count a.epi_count a.has_violations a.violations)
    ∧ (∀ v : WireViolation, v = WireViolation.mk v.class_id v.count)
    ∧ cameraCardAlertReads ⊆ alertWireFields
    ∧ cameraCardViolationReads ⊆ violationWireFields
    ∧ alertWireFields.Nodup
    ∧ violationWireFields.Nodup :=
  ⟨fun _ => rfl, fun _ => rfl, by decide, by decide, by decide, by decide⟩

/-- Display data for a violation class in the CameraCard panel (the React
icon node carries no data and is omitted). -/
structure DisplayInfo where
  name : String
  shortName : String
deriving DecidableEq

/-- VIOLATION_INFO from CameraCard.tsx: the known violation taxonomy, keyed
by class id (5, 7, 8, 9, 10). -/
def VIOLATION_INFO : Nat → Option DisplayInfo
  | 5 => some ⟨"Sem EPI", "Sem EPI"⟩
  | 7 => some ⟨"Sem Capacete", "Capacete"⟩
  | 8 => some ⟨"Sem Óculos", "Óculos"⟩
  | 9 => some ⟨"Sem Luvas", "Luvas"⟩
  | 10 => some ⟨"Sem Botas", "Botas"⟩
  | _ => none

/-- CameraCard fallback for a class id missing from VIOLATION_INFO. -/
def defaultDisplay (c : Nat) : DisplayInfo :=
  ⟨"Classe " ++ toString c, "Violação " ++ toString c⟩

/-- displayInfo = info or fallback, as in the violations-list rendering. -/
def displayFor (c : Nat) : DisplayInfo :=
  (VIOLATION_INFO c).getD (defaultDisplay c)

/-- The rendered violations list: one item per entry of the grouped counts,
never filtered on taxonomy membership. -/
def violationItems (vs : List WireViolation) : List (Nat × DisplayInfo × Nat) :=
  (getViolationCounts vs).map (fun p => (p.1, displayFor p.1, p.2))

/-- C3: a violation class id outside the known taxonomy is still surfaced:
the rendered list has one item per grouped entry (nothing dropped), and any
class id occurring among the wire violations with no VIOLATION_INFO mapping
still yields an item carrying that class id, the fallback display, and the
per-class count. -/
theorem C3_unmapped_class_surfaced (vs : List WireViolation) (c : Nat)
    (hunmapped : VIOLATION_INFO c = none)
    (hc : ∃ v ∈ vs, v.class_id = c) :
    (violationItems vs).length = (getViolationCounts vs).length
    ∧ (c, defaultDisplay c, countClass vs c) ∈ violationItems vs := by
  obtain ⟨-, hmem, -⟩ := C2_violations_grouped_by_class vs c hc
  constructor
  · simp [violationItems]
  · have : displayFor c = defaultDisplay c := by
      simp [displayFor, hunmapped]
    rw [← this]
    exact List.mem_map.mpr ⟨(c, countClass vs c), hmem, rfl⟩

/-- C3 witness: class 42 is not in the taxonomy, yet a frame with one class
42 violation renders an item for it. -/
theorem C3_unmapped_class_surfaced_witness :
    (violationItems [⟨42, 1⟩]).length = (getViolationCounts [⟨42, 1⟩]).length
    ∧ (42, defaultDisplay 42, countClass [⟨42, 1⟩] 42)
        ∈ violationItems [⟨42, 1⟩] :=
  C3_unmapped_class_surfaced [⟨42, 1⟩] 42 (by decide)
    ⟨⟨42, 1⟩, by decide, by decide⟩

/-- Response type of cameraService.getStreamStatus in
frontend/src/services/api.ts: two booleans, streaming and active. -/
structure StreamStatus where
  streaming : Bool
  active : Bool
deriving DecidableEq

/-- Field names of the getStreamStatus response record as declared in
api.ts. -/
def streamStatusFields : List String :=
  ["streaming", "active"]

/-- C4 counterexample: the claim says getStreamStatus returns a record with
a lifecycleState field holding a state-machine state; the response type
declared in api.ts has no such field. -/
theorem C4_no_lifecycleState_field :
    "lifecycleState" ∉ streamStatusFields := by decide

/-- C4 amended: getStreamStatus(cameraId) returns a record with exactly the
two boolean fields streaming (whether the worker is actively publishing) and
active (whether the camera is configured active); there is no lifecycleState
field. -/
theorem C4_status_is_streaming_and_active :
    streamStatusFields = ["streaming", "active"]
    ∧ "lifecycleState" ∉ streamStatusFields
    ∧ ∀ s : StreamStatus, s = StreamStatus.mk s.streaming s.active :=
  ⟨rfl, by decide, fun _ => rfl⟩

/-- Typed failures of the Stream/Alert Access Layer, from the spec's error
taxonomy. -/
inductive AccessError where
  | NotFound
  | Unavailable
deriving DecidableEq

/-- Modelled from the spec: the Access Layer operation
getAlertSnapshot(cameraId) (the backend implementation is not among the
source files). It fails with NotFound when the camera id is unknown, with
Unavailable when the camera exists but no worker is running or no frame has
been processed yet (no published snapshot), and otherwise returns the
current snapshot; failures are the typed Except results, never thrown. -/
def getAlertSnapshot (knownIds : List String)
    (published : String → Option CameraAlerts) (cameraId : String) :
    Except AccessError CameraAlerts :=
  if cameraId ∈ knownIds then
    match published cameraId with
    | some s => Except.ok s
    | none => Except.error AccessError.Unavailable
  else
    Except.error AccessError.NotFound

/-- C7: getAlertSnapshot returns NotFound exactly when the camera id is
unknown, Unavailable exactly when the camera is known but nothing is
published for it, and the current snapshot exactly when the camera is known
and publishing; every failure is a typed Except result. -/
theorem C7_alert_snapshot_typed_results (knownIds : List String)
    (published : String → Option CameraAlerts) (cameraId : String) :
    (getAlertSnapshot knownIds published cameraId
        = Except.error AccessError.NotFound ↔ cameraId ∉ knownIds)
    ∧ (getAlertSnapshot knownIds published cameraId
        = Except.error AccessError.Unavailable
        ↔ cameraId ∈ knownIds ∧ published cameraId = none)
    ∧ ∀ s, getAlertSnapshot knownIds published cameraId = Except.ok s
        ↔ cameraId ∈ knownIds ∧ published cameraId = some s := by
  unfold getAlertSnapshot
  by_cases hk : cameraId ∈ knownIds
  · cases hp : published cameraId with
    | none => simp [hk, hp]
    | some s => simp [hk, hp]
  · simp [hk]

/-- CameraConfig record from the spec data model: id (unique, stable), name,
sourceUrl, targetFps, active. -/
structure CameraConfig where
  id : String
  name : String
  sourceUrl : String
  targetFps : Nat
  active : Bool
deriving DecidableEq

/-- A live Stream Worker, keyed by camera id and carrying the config it was
started with (WorkerState cameraId plus the parameters whose change forces a
restart). Modelled from the spec: the Worker Manager implementation is not
among the source files. -/
structure Worker where
  cameraId : String
  sourceUrl : String
  targetFps : Nat
deriving DecidableEq

/-- Create and start a worker for a config. -/
def startWorker (c : CameraConfig) : Worker :=
  ⟨c.id, c.sourceUrl, c.targetFps⟩

/-- The running worker for a camera id, if any. -/
def workerFor (workers : List Worker) (cid : String) : Option Worker :=
  workers.find? (fun w => w.cameraId == cid)

/-- Reconciliation decision for one active config: keep the running worker
when its sourceUrl and targetFps still match (starting a second worker for a
running id is a no-op), otherwise stop it and start a fresh one. -/
def reconcileOne (workers : List Worker) (c : CameraConfig) : Worker :=
  match workerFor workers c.id with
  | some w =>
    if w.sourceUrl == c.sourceUrl && w.targetFps == c.targetFps then w
    else startWorker c
  | none => startWorker c

/-- Modelled from the spec: WorkerManager.reconcile(desiredConfigs) keeps the
running-worker set consistent with the active desired configs; workers whose
config is inactive, deleted, or changed are stopped, active configs without a
matching worker get a fresh one. -/
def reconcile (desired : List CameraConfig) (workers : List Worker) :
    List Worker :=
  (desired.filter (fun c => c.active)).map (reconcileOne workers)

/-- The camera ids of the live workers. -/
def workerIds (workers : List Worker) : List String :=
  workers.map Worker.cameraId

/-- Operations on the Worker Manager: reconciliation (on configuration
change), stopAll (process shutdown, specified as teardown of every worker,
i.e. reconciliation toward an empty desired set), and the read-only status
query used by the Access Layer. -/
inductive ManagerOp where
  | doReconcile (desired : List CameraConfig)
  | doStopAll
  | readStatus (cameraId : String)
deriving DecidableEq

/-- State transition of the Worker Manager for one operation. -/
def applyOp : ManagerOp → List Worker → List Worker
  | ManagerOp.doReconcile d, ws => reconcile d ws
  | ManagerOp.doStopAll, ws => reconcile [] ws
  | ManagerOp.readStatus _, ws => ws

/-- Well-formedness of an operation: a reconcile call carries configs with
unique ids (the Camera Registry invariant). -/
def opOk : ManagerOp → Prop
  | ManagerOp.doReconcile d => (d.map CameraConfig.id).Nodup
  | ManagerOp.doStopAll => True
  | ManagerOp.readStatus _ => True

/-- Running a sequence of manager operations. -/
def execOps (ops : List ManagerOp) (ws : List Worker) : List Worker :=
  ops.foldl (fun s op => applyOp op s) ws

theorem reconcileOne_cameraId (workers : List Worker) (c : CameraConfig) :
    (reconcileOne workers c).cameraId = c.id := by
  unfold reconcileOne
  cases hf : workerFor workers c.id with
  | none => simp [startWorker]
  | some w =>
    have hf2 : workers.find? (fun w => w.cameraId == c.id) = some w := hf
    have hw := List.find?_some hf2
    have hw2 : w.cameraId = c.id := by simpa using hw
    by_cases ht : (w.sourceUrl == c.sourceUrl && w.targetFps == c.targetFps) = true
    · simp [ht, hw2]
    · simp [ht, startWorker]

theorem reconcileOne_sourceUrl (workers : List Worker) (c : CameraConfig) :
    (reconcileOne workers c).sourceUrl = c.sourceUrl
    ∧ (reconcileOne workers c).targetFps = c.targetFps := by
  unfold reconcileOne
  cases hf : workerFor workers c.id with
  | none => simp [startWorker]
  | some w =>
    by_cases ht : (w.sourceUrl == c.sourceUrl && w.targetFps == c.targetFps) = true
    · have h1 : w.sourceUrl = c.sourceUrl := by
        have := (Bool.and_eq_true _ _).mp ht
        simpa using this.1
      have h2 : w.targetFps = c.targetFps := by
        have := (Bool.and_eq_true _ _).mp ht
        simpa using this.2
      simp [ht, h1, h2]
    · simp [ht, startWorker]

theorem workerIds_reconcile (desired : List CameraConfig)
    (workers : List Worker) :
    workerIds (reconcile desired workers)
      = (desired.filter (fun c => c.active)).map CameraConfig.id := by
  unfold workerIds reconcile
  rw [List.map_map]
  apply List.map_congr_left
  intro c _
  exact reconcileOne_cameraId workers c

theorem workerIds_reconcile_nodup (desired : List CameraConfig)
    (workers : List Worker) (hnd : (desired.map CameraConfig.id).Nodup) :
    (workerIds (reconcile desired workers)).Nodup := by
  rw [workerIds_reconcile]
  exact hnd.sublist (List.Sublist.map _ (List.filter_sublist _))

theorem find?_map_eq_some (l : List CameraConfig) (g : CameraConfig → Worker)
    (hg : ∀ c ∈ l, (g c).cameraId = c.id)
    (hnd : (l.map CameraConfig.id).Nodup) (c : CameraConfig) (hc : c ∈ l) :
    (l.map g).find? (fun w => w.cameraId == c.id) = some (g c) := by
  induction l with
  | nil => cases hc
  | cons a l ih =>
    rcases List.mem_cons.mp hc with rfl | hcl
    · rw [List.map_cons]
      exact List.find?_cons_of_pos _ (by simp [hg c (List.mem_cons_self c l)])
    · have ha : (g a).cameraId = a.id := hg a (List.mem_cons_self a l)
      have hne : a.id ≠ c.id := by
        intro he
        have h1 : a.id ∈ l.map CameraConfig.id :=
          he ▸ List.mem_map.mpr ⟨c, hcl, rfl⟩
        simp only [List.map_cons, List.nodup_cons] at hnd
        exact hnd.1 h1
      rw [List.map_cons, List.find?_cons_of_neg _ (by simp [ha, hne])]
      refine ih (fun x hx => hg x (List.mem_cons_of_mem a hx)) ?_ hcl
      simp only [List.map_cons, List.nodup_cons] at hnd
      exact hnd.2

theorem reconcileOne_of_matching (ws : List Worker) (c : CameraConfig)
    (w : Worker) (hf : workerFor ws c.id = some w)
    (hu : w.sourceUrl = c.sourceUrl) (hfps : w.targetFps = c.targetFps) :
    reconcileOne ws c = w := by
  unfold reconcileOne
  rw [hf]
  simp [hu, hfps]

theorem reconcile_idem (desired : List CameraConfig) (workers : List Worker)
    (hnd : (desired.map CameraConfig.id).Nodup) :
    reconcile desired (reconcile desired workers)
      = reconcile desired workers := by
  unfold reconcile
  apply List.map_congr_left
  intro c hc
  have hfl : ((desired.filter (fun c => c.active)).map CameraConfig.id).Nodup :=
    hnd.sublist (List.Sublist.map _ (List.filter_sublist _))
  have hfind : ((desired.filter (fun c => c.active)).map
        (reconcileOne workers)).find? (fun w => w.cameraId == c.id)
      = some (reconcileOne workers c) :=
    find?_map_eq_some _ _ (fun x _ => reconcileOne_cameraId workers x) hfl c hc
  have hsrc := reconcileOne_sourceUrl workers c
  exact reconcileOne_of_matching _ c _ hfind hsrc.1 hsrc.2

theorem worker_kept_of_matching (desired : List CameraConfig)
    (workers : List Worker) (c : CameraConfig) (w : Worker)
    (hcd : c ∈ desired) (hact : c.active = true)
    (hf : workerFor workers c.id = some w)
    (hu : w.sourceUrl = c.sourceUrl) (hfps : w.targetFps = c.targetFps) :
    w ∈ reconcile desired workers := by
  have hcf : c ∈ desired.filter (fun c => c.active) :=
    List.mem_filter.mpr ⟨hcd, by simp [hact]⟩
  have hrw : reconcileOne workers c = w :=
    reconcileOne_of_matching workers c w hf hu hfps
  have hmem : reconcileOne workers c ∈ reconcile desired workers :=
    List.mem_map.mpr ⟨c, hcf, rfl⟩
  rw [hrw] at hmem
  exact hmem

theorem execOps_nodup (ops : List ManagerOp) :
    ∀ ws : List Worker, (∀ op ∈ ops, opOk op) → (workerIds ws).Nodup →
      (workerIds (execOps ops ws)).Nodup := by
  induction ops with
  | nil => intro ws _ h; simpa [execOps] using h
  | cons op ops ih =>
    intro ws hok h
    have h1 : (workerIds (applyOp op ws)).Nodup := by
      cases op with
      | doReconcile d =>
        exact workerIds_reconcile_nodup d ws (hok _ (List.mem_cons_self _ _))
      | doStopAll => simp [applyOp, reconcile, workerIds]
      | readStatus cid => simpa [applyOp] using h
    exact ih _ (fun o ho => hok o (List.mem_cons_of_mem _ ho)) h1

/-- C6: with unique config ids, every reachable worker set has at most one
live worker per camera id (duplicate-free worker ids are preserved by every
manager operation); re-reconciling the same desired configs is a no-op, and
a running worker whose config is unchanged and active is kept as is rather
than recreated; status reads never mutate the worker set, and stopAll is
the reconciliation toward the empty desired set, so reconciliation is the
only path that creates or destroys workers. -/
theorem C6_at_most_one_worker_per_id :
    (∀ (ops : List ManagerOp) (ws : List Worker),
      (∀ op ∈ ops, opOk op) → (workerIds ws).Nodup →
      (workerIds (execOps ops ws)).Nodup)
    ∧ (∀ (d : List CameraConfig) (ws : List Worker),
      (d.map CameraConfig.id).Nodup →
      reconcile d (reconcile d ws) = reconcile d ws)
    ∧ (∀ (d : List CameraConfig) (ws : List Worker) (c : CameraConfig)
        (w : Worker),
      c ∈ d → c.active = true → workerFor ws c.id = some w →
      w.sourceUrl = c.sourceUrl → w.targetFps = c.targetFps →
      w ∈ reconcile d ws)
    ∧ (∀ (cid : String) (ws : List Worker),
      applyOp (ManagerOp.readStatus cid) ws = ws)
    ∧ (∀ ws : List Worker, applyOp ManagerOp.doStopAll ws = reconcile [] ws) :=
  ⟨fun ops ws hok h => execOps_nodup ops ws hok h,
   fun d ws hnd => reconcile_idem d ws hnd,
   fun d ws c w hcd hact hf hu hfps =>
     worker_kept_of_matching d ws c w hcd hact hf hu hfps,
   fun _ _ => rfl,
   fun _ => rfl⟩

/-- C6 witness: one camera c1, reconciled from the empty worker set; the
reached worker set has unique ids, reconciling again changes nothing, and
the already-running matching worker is kept. -/
theorem C6_at_most_one_worker_per_id_witness :
    (workerIds (execOps
        [ManagerOp.doReconcile [⟨"c1", "Entrada", "rtsp://x", 5, true⟩]]
        [])).Nodup
    ∧ reconcile [⟨"c1", "Entrada", "rtsp://x", 5, true⟩]
        (reconcile [⟨"c1", "Entrada", "rtsp://x", 5, true⟩] [])
      = reconcile [⟨"c1", "Entrada", "rtsp://x", 5, true⟩] []
    ∧ (⟨"c1", "rtsp://x", 5⟩ : Worker)
        ∈ reconcile [⟨"c1", "Entrada", "rtsp://x", 5, true⟩]
            [⟨"c1", "rtsp://x", 5⟩] :=
  ⟨C6_at_most_one_worker_per_id.1 _ []
      (by
        intro op hop
        simp only [List.mem_singleton] at hop
        subst hop
        simp [opOk])
      (by simp [workerIds]),
   C6_at_most_one_worker_per_id.2.1 _ [] (by simp),
   C6_at_most_one_worker_per_id.2.2.1 _ _
      (⟨"c1", "Entrada", "rtsp://x", 5, true⟩ : CameraConfig) _
      (by decide) rfl (by decide) rfl rfl⟩

/-- Camera record of the frontend API client (services/api.ts). -/
structure Camera where
  id : String
  name : String
  url : String
  fps : Int
  active : Bool
deriving DecidableEq

/-- Payload of cameraService.createCamera (CameraCreate in api.ts). -/
structure CameraCreate where
  name : String
  url : String
  fps : Int
deriving DecidableEq

/-- The AddCamera formData state. -/
structure FormState where
  name : String
  url : String
  fps : Int
deriving DecidableEq

/-- Initial and post-submit formData: name '', url '', fps 5. -/
def initialForm : FormState := ⟨"", "", 5⟩

/-- The JS expression parseInt(value) or 1: parseInt yielding NaN is
modelled as none, and both NaN and 0 are falsy, so they become 1. -/
def jsOrOne : Option Int → Int
  | none => 1
  | some n => if n = 0 then 1 else n

/-- User interactions with the AddCamera form: changing one of the inputs
(the fps slider delivers a parseInt result), or the reset performed after a
successful submit. -/
inductive FormEvent where
  | setName (value : String)
  | setUrl (value : String)
  | setFps (value : Option Int)
  | submitReset
deriving DecidableEq

/-- AddCamera.handleInputChange (plus the post-submit reset): the fps field
is set to parseInt(value) or 1, the text fields to the raw value. -/
def handleInputChange : FormEvent → FormState → FormState
  | FormEvent.setName v, f => { f with name := v }
  | FormEvent.setUrl v, f => { f with url := v }
  | FormEvent.setFps v, f => { f with fps := jsOrOne v }
  | FormEvent.submitReset, _ => initialForm

/-- Contract of the fps range input (min 1, max 30): the browser only
delivers values in that range, or a non-numeric parse. -/
def sliderOk : FormEvent → Prop
  | FormEvent.setFps (some n) => 1 ≤ n ∧ n ≤ 30
  | _ => True

/-- Folding a sequence of form events over a form state. -/
def runEvents (events : List FormEvent) (f : FormState) : FormState :=
  events.foldl (fun s e => handleInputChange e s) f

/-- JS String.prototype.toLowerCase, character-wise. -/
def jsToLower (s : String) : String := String.mk (s.data.map Char.toLower)

/-- The AddCamera duplicate-name check: some existing camera whose lowercased
name equals the lowercased entered name. -/
def nameExists (cams : List Camera) (entered : String) : Bool :=
  cams.any (fun c => jsToLower c.name == jsToLower entered)

/-- Outcome of a form submission: an error message with no createCamera
call, or the createCamera payload. -/
inductive SubmitResult where
  | rejected (message : String)
  | created (payload : CameraCreate)
deriving DecidableEq

/-- AddCamera.handleSubmit: reject on duplicate name, empty trimmed name or
empty trimmed url, in that order; otherwise call createCamera with the
trimmed fields and reset the form. The returned triple is the outcome, the
camera list after the handler (unchanged on rejection, the refetched server
list after a creation) and the form state after the handler. -/
def handleSubmit (refetched : List Camera) (cams : List Camera)
    (f : FormState) : SubmitResult × List Camera × FormState :=
  if nameExists cams f.name then
    (SubmitResult.rejected
        ("Já existe uma câmera com o nome \"" ++ f.name ++ "\""), cams, f)
  else if f.name.trim = "" then
    (SubmitResult.rejected "O nome da câmera é obrigatório", cams, f)
  else if f.url.trim = "" then
    (SubmitResult.rejected "O link da câmera/vídeo é obrigatório", cams, f)
  else
    (SubmitResult.created ⟨f.name.trim, f.url.trim, f.fps⟩, refetched,
      initialForm)

/-- Dashboard.handleDeleteCamera local update: drop the entries whose id
matches. -/
def handleDeleteCamera (cams : List Camera) (cid : String) : List Camera :=
  cams.filter (fun cam => cam.id != cid)

/-- Dashboard.handleToggleCamera local update: replace the matching entry by
the server's updated record. -/
def handleToggleCamera (cams : List Camera) (cid : String)
    (updated : Camera) : List Camera :=
  cams.map (fun cam => if cam.id = cid then updated else cam)

theorem nameExists_iff (cams : List Camera) (s : String) :
    nameExists cams s = true ↔ ∃ c ∈ cams, jsToLower c.name = jsToLower s := by
  simp [nameExists, List.any_eq_true]

theorem handleSubmit_created (refetched cams : List Camera) (f : FormState)
    (p : CameraCreate) (l : List Camera) (f2 : FormState)
    (h : handleSubmit refetched cams f = (SubmitResult.created p, l, f2)) :
    nameExists cams f.name = false ∧ f.name.trim ≠ "" ∧ f.url.trim ≠ ""
    ∧ p = ⟨f.name.trim, f.url.trim, f.fps⟩ ∧ l = refetched
    ∧ f2 = initialForm := by
  unfold handleSubmit at h
  by_cases h1 : nameExists cams f.name
  · simp [h1] at h
  · by_cases h2 : f.name.trim = ""
    · simp [h1, h2] at h
    · by_cases h3 : f.url.trim = ""
      · simp [h1, h2, h3] at h
      · simp [h1, h2, h3] at h
        refine ⟨by simpa using h1, h2, h3, ?_, ?_, ?_⟩ <;> simp_all

theorem fps_range_invariant (events : List FormEvent) :
    ∀ f : FormState, (∀ e ∈ events, sliderOk e) →
      1 ≤ f.fps → f.fps ≤ 30 →
      1 ≤ (runEvents events f).fps ∧ (runEvents events f).fps ≤ 30 := by
  induction events with
  | nil => intro f _ h1 h2; exact ⟨h1, h2⟩
  | cons e es ih =>
    intro f hok h1 h2
    have hstep : 1 ≤ (handleInputChange e f).fps
        ∧ (handleInputChange e f).fps ≤ 30 := by
      cases e with
      | setName v => exact ⟨h1, h2⟩
      | setUrl v => exact ⟨h1, h2⟩
      | setFps v =>
        have hs := hok _ (List.mem_cons_self _ _)
        cases v with
        | none => simp [handleInputChange, jsOrOne]
        | some n =>
          obtain ⟨ha, hb⟩ := hs
          have hn : n ≠ 0 := by omega
          simp only [handleInputChange, jsOrOne, if_neg hn]
          exact ⟨ha, hb⟩
      | submitReset => simp [handleInputChange, initialForm]
    exact ih _ (fun x hx => hok x (List.mem_cons_of_mem _ hx)) hstep.1 hstep.2

/-- C8: over any sequence of form inputs satisfying the fps range-input
contract (min 1, max 30, or a non-numeric parse), the form's fps stays an
integer between 1 and 30 starting from the initial value 5; a non-numeric
fps input is replaced by 1; and the fps value handed to createCamera on a
successful submission is the form's fps, hence between 1 and 30. -/
theorem C8_submitted_fps_in_range (events : List FormEvent)
    (hok : ∀ e ∈ events, sliderOk e) :
    (1 ≤ (runEvents events initialForm).fps
      ∧ (runEvents events initialForm).fps ≤ 30)
    ∧ jsOrOne none = 1
    ∧ ∀ (refetched cams : List Camera) (p : CameraCreate) (l : List Camera)
        (f2 : FormState),
        handleSubmit refetched cams (runEvents events initialForm)
          = (SubmitResult.created p, l, f2) →
        1 ≤ p.fps ∧ p.fps ≤ 30 := by
  have hr := fps_range_invariant events initialForm hok (by decide) (by decide)
  refine ⟨hr, rfl, ?_⟩
  intro refetched cams p l f2 h
  obtain ⟨-, -, -, hp, -, -⟩ := handleSubmit_created _ _ _ _ _ _ h
  have : p.fps = (runEvents events initialForm).fps := by rw [hp]
  rw [this]
  exact hr

/-- C8 witness: a non-numeric fps input followed by the slider value 30. -/
theorem C8_submitted_fps_in_range_witness :
    (1 ≤ (runEvents [FormEvent.setFps none, FormEvent.setFps (some 30)]
        initialForm).fps
      ∧ (runEvents [FormEvent.setFps none, FormEvent.setFps (some 30)]
        initialForm).fps ≤ 30)
    ∧ jsOrOne none = 1
    ∧ ∀ (refetched cams : List Camera) (p : CameraCreate) (l : List Camera)
        (f2 : FormState),
        handleSubmit refetched cams
            (runEvents [FormEvent.setFps none, FormEvent.setFps (some 30)]
              initialForm)
          = (SubmitResult.created p, l, f2) →
        1 ≤ p.fps ∧ p.fps ≤ 30 :=
  C8_submitted_fps_in_range [FormEvent.setFps none, FormEvent.setFps (some 30)]
    (by
      intro e he
      rcases List.mem_cons.mp he with rfl | he2
      · trivial
      · rcases List.mem_singleton.mp he2 with rfl
        exact ⟨by decide, by decide⟩)

/-- C9: when some listed camera's name equals the entered name after
lowercasing, the submit handler rejects with the duplicate-name message,
leaving the camera list and the form data unchanged and never invoking
createCamera; and createCamera is invoked exactly with the trimmed fields,
and only when there is no case-insensitive duplicate and the trimmed name
and url are both non-empty. -/
theorem C9_duplicate_name_blocks_create (refetched cams : List Camera)
    (f : FormState) :
    ((∃ c ∈ cams, jsToLower c.name = jsToLower f.name) →
      handleSubmit refetched cams f
        = (SubmitResult.rejected
            ("Já existe uma câmera com o nome \"" ++ f.name ++ "\""),
          cams, f))
    ∧ ∀ (p : CameraCreate) (l : List Camera) (f2 : FormState),
        handleSubmit refetched cams f = (SubmitResult.created p, l, f2) →
        (∀ c ∈ cams, jsToLower c.name ≠ jsToLower f.name)
        ∧ f.name.trim ≠ "" ∧ f.url.trim ≠ ""
        ∧ p = ⟨f.name.trim, f.url.trim, f.fps⟩ := by
  constructor
  · intro hex
    have hne : nameExists cams f.name = true := (nameExists_iff _ _).mpr hex
    unfold handleSubmit
    simp [hne]
  · intro p l f2 h
    obtain ⟨hne, h2, h3, hp, -, -⟩ := handleSubmit_created _ _ _ _ _ _ h
    refine ⟨?_, h2, h3, hp⟩
    intro c hc heq
    have : nameExists cams f.name = true :=
      (nameExists_iff _ _).mpr ⟨c, hc, heq⟩
    rw [this] at hne
    cases hne

/-- C9 witness: an existing camera named Entrada blocks submitting the name
ENTRADA, leaving list and form unchanged. -/
theorem C9_duplicate_name_blocks_create_witness :
    handleSubmit [] [⟨"1", "Entrada", "0", 5, true⟩] ⟨"ENTRADA", "x", 5⟩
      = (SubmitResult.rejected
          ("Já existe uma câmera com o nome \"" ++ "ENTRADA" ++ "\""),
        [⟨"1", "Entrada", "0", 5, true⟩], ⟨"ENTRADA", "x", 5⟩) :=
  (C9_duplicate_name_blocks_create [] [⟨"1", "Entrada", "0", 5, true⟩]
      ⟨"ENTRADA", "x", 5⟩).1
    ⟨⟨"1", "Entrada", "0", 5, true⟩, by decide, by decide⟩

/-- C10: the Dashboard delete handler removes exactly the entries whose id
equals the deleted id (multiplicity-exact) and keeps the others unchanged in
their original relative order (a sublist of the previous list); the toggle
handler keeps the length and maps each position to the updated record
exactly when its id matches, leaving every other position unchanged. -/
theorem C10_delete_and_toggle_local_state (cams : List Camera) (cid : String)
    (updated : Camera) :
    (∀ c : Camera, (handleDeleteCamera cams cid).count c
        = if c.id = cid then 0 else cams.count c)
    ∧ (handleDeleteCamera cams cid).Sublist cams
    ∧ (handleToggleCamera cams cid updated).length = cams.length
    ∧ ∀ i : Nat, (handleToggleCamera cams cid updated)[i]?
        = (cams[i]?).map (fun c => if c.id = cid then updated else c) := by
  refine ⟨?_, List.filter_sublist _, List.length_map _ _, ?_⟩
  · intro c
    by_cases hc : c.id = cid
    · rw [if_pos hc]
      apply List.count_eq_zero.mpr
      intro hmem
      have hpred := (List.mem_filter.mp hmem).2
      simp [hc] at hpred
    · rw [if_neg hc]
      apply List.count_filter
      simp [hc]
  · intro i
    simp [handleToggleCamera, List.getElem?_map]

/-- C7 witness: an unknown camera id yields the typed NotFound result. -/
theorem C7_alert_snapshot_typed_results_witness :
    getAlertSnapshot ["c1"] (fun _ => none) "c2"
      = Except.error AccessError.NotFound :=
  ((C7_alert_snapshot_typed_results ["c1"] (fun _ => none) "c2").1).mpr
    (by decide)
